import Mathlib

/-!
Verification development for the audit-stream ingestion and
vulnerability-extraction pipeline of the MCP security-report frontend.
The TypeScript source is embedded shallowly: JS strings become `List Char`,
`JSON.parse` becomes a fuel-bounded recursive-descent parser returning
`Option Json`, exceptions become `Option`, and the regex templates of
`extractScore` / `extractVulnerabilities` become deterministic matchers
(the templates use only literals, greedy character-class runs and one
bounded-backtracking tail, so their JS semantics are deterministic).
-/

set_option maxRecDepth 8192

/-- Severity vocabulary of a `Finding` (closed set in the source). -/
inductive Sev where
  | HIGH
  | MED
  | LOW
deriving DecidableEq, Repr

/-- JSON values as produced by `JSON.parse`.  Numbers keep their source
lexeme: the pipeline only ever uses numbers through truthiness tests. -/
inductive Json where
  | null : Json
  | bool (b : Bool) : Json
  | num (lexeme : List Char) : Json
  | str (s : List Char) : Json
  | arr (elems : List Json) : Json
  | obj (fields : List (List Char × Json)) : Json

/-- Evidence block of a `Finding` (source interface `Finding.evidence`).
`explanation` carries a raw JSON value because strategy 1 stores the
unvalidated `cause` field there. -/
structure Evidence where
  request : List Char
  response : List Char
  explanation : Json

/-- A normalized vulnerability record (source interface `Finding`).
`description` is a raw JSON value for the same reason as
`Evidence.explanation`. -/
structure Finding where
  id : List Char
  tag : List Char
  severity : Sev
  description : Json
  evidence : Evidence

/-- JS whitespace class `\s` restricted to its ASCII members (space, tab,
newline, carriage return, vertical tab, form feed); the audit texts the
pipeline consumes are ASCII. -/
def isJsWs (c : Char) : Bool :=
  [' ', '\t', '\n', '\r', '\x0b', '\x0c'].contains c

/-- `String.prototype.trim`. -/
def jsTrim (s : List Char) : List Char :=
  ((s.dropWhile isJsWs).reverse.dropWhile isJsWs).reverse

/-- Case-insensitive character comparison used by the `/i` regex flag
(ASCII folding). -/
def ciEq (a b : Char) : Bool := a.toLower == b.toLower

/-- Consume a literal from the head of `s`; `ci` selects the `/i` flag.
Returns the rest of the input on success. -/
def matchLit (ci : Bool) : List Char → List Char → Option (List Char)
  | [], s => some s
  | _ :: _, [] => none
  | p :: ps, c :: s =>
    if (if ci then ciEq p c else p == c) then matchLit ci ps s else none

/-- Maximal run of characters satisfying `p` (greedy `X*` for a character
class `X`), returning the run and the rest. -/
def takeRun (p : Char → Bool) : List Char → List Char × List Char
  | [] => ([], [])
  | c :: s =>
    if p c then
      let (r, rest) := takeRun p s
      (c :: r, rest)
    else ([], c :: s)

/-- Greedy `X+` for a character class `X`. -/
def runPlus (p : Char → Bool) (s : List Char) : Option (List Char × List Char) :=
  match takeRun p s with
  | ([], _) => none
  | (r, rest) => some (r, rest)

/-- Whitespace character of the JSON grammar (`JSON.parse`). -/
def isJsonWs (c : Char) : Bool :=
  [' ', '\t', '\n', '\r'].contains c

/-- Skip JSON inter-token whitespace. -/
def jsonSkipWs (s : List Char) : List Char := s.dropWhile isJsonWs

/-- Hex digit value, for `\uXXXX` string escapes. -/
def hexVal (c : Char) : Option Nat :=
  let n := c.toNat
  if 48 ≤ n ∧ n ≤ 57 then some (n - 48)
  else if 97 ≤ n ∧ n ≤ 102 then some (n - 87)
  else if 65 ≤ n ∧ n ≤ 70 then some (n - 55)
  else none

/-- Body of a JSON string after the opening quote: decodes escapes,
rejects raw control characters, stops at the closing quote. -/
def jsonStringBody : Nat → List Char → Option (List Char × List Char)
  | 0, _ => none
  | _, [] => none
  | fuel + 1, c :: rest =>
    if c = '"' then some ([], rest)
    else if c = '\\' then
      match rest with
      | [] => none
      | e :: rest2 =>
        let cont (d : Char) (r : List Char) : Option (List Char × List Char) :=
          (jsonStringBody fuel r).map (fun p => (d :: p.1, p.2))
        if e = '"' then cont '"' rest2
        else if e = '\\' then cont '\\' rest2
        else if e = '/' then cont '/' rest2
        else if e = 'b' then cont '\x08' rest2
        else if e = 'f' then cont '\x0c' rest2
        else if e = 'n' then cont '\n' rest2
        else if e = 'r' then cont '\r' rest2
        else if e = 't' then cont '\t' rest2
        else if e = 'u' then
          match rest2 with
          | h1 :: h2 :: h3 :: h4 :: rest3 =>
            match hexVal h1, hexVal h2, hexVal h3, hexVal h4 with
            | some a, some b, some c2, some d =>
              cont (Char.ofNat (((a * 16 + b) * 16 + c2) * 16 + d)) rest3
            | _, _, _, _ => none
          | _ => none
        else none
    else if c.toNat < 32 then none
    else (jsonStringBody fuel rest).map (fun p => (c :: p.1, p.2))

/-- JSON number lexeme: `-? (0 | [1-9][0-9]*) (.digits)? ([eE][+-]?digits)?`. -/
def jsonNumber (s : List Char) : Option (List Char × List Char) :=
  let (neg, s1) := match s with
    | '-' :: t => (['-'], t)
    | t => (([] : List Char), t)
  match s1 with
  | [] => none
  | c :: t =>
    if c = '0' then
      jsonNumTail (neg ++ [c]) t
    else if c.isDigit then
      let (ds, rest) := takeRun Char.isDigit t
      jsonNumTail (neg ++ c :: ds) rest
    else none
where
  /-- Optional fraction and exponent. -/
  jsonNumTail (intPart : List Char) (s : List Char) : Option (List Char × List Char) :=
    let (frac, s2) := match s with
      | '.' :: t =>
        (match takeRun Char.isDigit t with
         | ([], _) => (none, s)
         | (ds, rest) => (some ('.' :: ds), rest))
      | _ => (none, s)
    match frac, s with
    | none, '.' :: _ => none
    | _, _ =>
      let fracL := frac.getD []
      let (expo, s3) := match s2 with
        | e :: t =>
          if e = 'e' || e = 'E' then
            let (sign, t2) := match t with
              | '+' :: u => (['+'], u)
              | '-' :: u => (['-'], u)
              | u => (([] : List Char), u)
            match takeRun Char.isDigit t2 with
            | ([], _) => (none, s2)
            | (ds, rest) => (some (e :: sign ++ ds), rest)
          else (none, s2)
        | _ => (none, s2)
      match expo, s2 with
      | none, e :: _ =>
        if e = 'e' || e = 'E' then none
        else some (intPart ++ fracL, s2)
      | _, _ => some (intPart ++ fracL ++ expo.getD [], s3)

mutual

/-- One JSON value (recursive descent, fuel-bounded; the fuel handed to
`jsonParse` always suffices, see there). -/
def jsonValue : Nat → List Char → Option (Json × List Char)
  | 0, _ => none
  | fuel + 1, s =>
    match s with
    | [] => none
    | c :: rest =>
      if c = '"' then (jsonStringBody (fuel + 1) rest).map (fun p => (Json.str p.1, p.2))
      else if c = 't' then (matchLit false ("rue".toList) rest).map (fun r => (Json.bool true, r))
      else if c = 'f' then (matchLit false ("alse".toList) rest).map (fun r => (Json.bool false, r))
      else if c = 'n' then (matchLit false ("ull".toList) rest).map (fun r => (Json.null, r))
      else if c = '[' then
        match jsonSkipWs rest with
        | ']' :: r => some (Json.arr [], r)
        | r => (jsonArrayRest fuel r).map (fun p => (Json.arr p.1, p.2))
      else if c = '\x7b' then
        match jsonSkipWs rest with
        | '\x7d' :: r => some (Json.obj [], r)
        | r => (jsonObjectRest fuel r).map (fun p => (Json.obj p.1, p.2))
      else (jsonNumber s).map (fun p => (Json.num p.1, p.2))

/-- Comma-separated values after `[`, when the array is non-empty. -/
def jsonArrayRest : Nat → List Char → Option (List Json × List Char)
  | 0, _ => none
  | fuel + 1, s =>
    match jsonValue fuel s with
    | none => none
    | some (v, r) =>
      match jsonSkipWs r with
      | ',' :: r2 => (jsonArrayRest fuel (jsonSkipWs r2)).map (fun p => (v :: p.1, p.2))
      | ']' :: r2 => some ([v], r2)
      | _ => none

/-- Comma-separated members after an opening brace, when the object is
non-empty. -/
def jsonObjectRest : Nat → List Char → Option (List (List Char × Json) × List Char)
  | 0, _ => none
  | fuel + 1, s =>
    match s with
    | '"' :: r =>
      match jsonStringBody (fuel + 1) r with
      | none => none
      | some (key, r2) =>
        match jsonSkipWs r2 with
        | ':' :: r3 =>
          match jsonValue fuel (jsonSkipWs r3) with
          | none => none
          | some (v, r4) =>
            match jsonSkipWs r4 with
            | ',' :: r5 => (jsonObjectRest fuel (jsonSkipWs r5)).map (fun p => ((key, v) :: p.1, p.2))
            | '\x7d' :: r5 => some ([(key, v)], r5)
            | _ => none
        | _ => none
    | _ => none

end

/-- `JSON.parse`: one value, surrounded only by whitespace.  The fuel
`2 * length + 8` dominates the recursion depth: every two fuel ticks at
least one input character is consumed. -/
def jsonParse (s : List Char) : Option Json :=
  match jsonValue (2 * s.length + 8) (jsonSkipWs s) with
  | some (j, rest) => if jsonSkipWs rest = [] then some j else none
  | none => none

/-- Property access `j?.key`; on objects `JSON.parse` keeps the last
duplicate key, so the last binding wins. -/
def lookupLast (key : List Char) : List (List Char × Json) → Option Json
  | [] => none
  | (k, v) :: rest =>
    match lookupLast key rest with
    | some r => some r
    | none => if k = key then some v else none

/-- Field access on a JSON value (`undefined` for non-objects). -/
def objGet (j : Json) (key : List Char) : Option Json :=
  match j with
  | Json.obj fields => lookupLast key fields
  | _ => none

/-- Is a number lexeme the number zero?  A parsed number is zero exactly
when every mantissa digit (integer and fraction parts, before any
exponent marker) is `0`; the exponent never changes zeroness. -/
def numIsZero (lexeme : List Char) : Bool :=
  ((lexeme.takeWhile (fun c => c != 'e' && c != 'E')).filter Char.isDigit).all
    (fun c => c == '0')

/-- JS truthiness of a parsed JSON value. -/
def jsTruthy : Json → Bool
  | Json.null => false
  | Json.bool b => b
  | Json.num l => !(numIsZero l)
  | Json.str s => !(s.isEmpty)
  | Json.arr _ => true
  | Json.obj _ => true

mutual

/-- JS string coercion of a JSON value (`String(v)`), used where the
source concatenates a possibly-non-string value into text.  Number
lexemes are kept verbatim (JS renormalizes numerals; the pipeline never
exercises that path). -/
def jsonRender : Json → List Char
  | Json.null => "null".toList
  | Json.bool b => if b then "true".toList else "false".toList
  | Json.num l => l
  | Json.str s => s
  | Json.arr xs => jsonRenderList xs
  | Json.obj _ => "[object Object]".toList

/-- Array coercion: elements joined by commas (`Array.prototype.join`
renders a `null` element as the empty string). -/
def jsonRenderList : List Json → List Char
  | [] => []
  | [Json.null] => []
  | [x] => jsonRender x
  | Json.null :: y :: rest => ',' :: jsonRenderList (y :: rest)
  | x :: y :: rest => jsonRender x ++ ',' :: jsonRenderList (y :: rest)

end

/-- Leftmost-match scan: try the at-position matcher at every start
position in turn, including the end position (JS `String.match` /
`RegExp.exec` search order). -/
def scanFirstAux {α : Type} (m : List Char → Option α) : List Char → Option α
  | [] => m []
  | c :: t =>
    match m (c :: t) with
    | some r => some r
    | none => scanFirstAux m t

/-- `.*LIT` tail with the `/i` flag: is a case-insensitive occurrence of
`lit` reachable without crossing a line terminator (the JS dot excludes
`\n` and `\r`)? -/
def dotStarThenLit (lit : List Char) : List Char → Bool
  | [] => (matchLit true lit []).isSome
  | c :: t =>
    if (matchLit true lit (c :: t)).isSome then true
    else if c = '\n' || c = '\r' then false
    else dotStarThenLit lit t

/-- `/security score of (\d+)\/100/i` at a position: captured digits. -/
def scorePat1 (s : List Char) : Option (List Char) := do
  let r1 ← matchLit true ("security score of ".toList) s
  let (d, r2) ← runPlus Char.isDigit r1
  let _ ← matchLit false ("/100".toList) r2
  some d

/-- `/risk score of (\d+)\/100/i` at a position. -/
def scorePat2 (s : List Char) : Option (List Char) := do
  let r1 ← matchLit true ("risk score of ".toList) s
  let (d, r2) ← runPlus Char.isDigit r1
  let _ ← matchLit false ("/100".toList) r2
  some d

/-- `/\*\*Risk Score:\*\*\s*(\d+)\/100/` (case-sensitive) at a position. -/
def scorePat3 (s : List Char) : Option (List Char) := do
  let r1 ← matchLit false ("**Risk Score:**".toList) s
  let (_, r2) := takeRun isJsWs r1
  let (d, r3) ← runPlus Char.isDigit r2
  let _ ← matchLit false ("/100".toList) r3
  some d

/-- `/(\d+)\/100.*security score/i` at a position. -/
def scorePat4 (s : List Char) : Option (List Char) := do
  let (d, r1) ← runPlus Char.isDigit s
  let r2 ← matchLit false ("/100".toList) r1
  if dotStarThenLit ("security score".toList) r2 then some d else none

/-- `/(\d+)\/100.*risk score/i` at a position. -/
def scorePat5 (s : List Char) : Option (List Char) := do
  let (d, r1) ← runPlus Char.isDigit s
  let r2 ← matchLit false ("/100".toList) r1
  if dotStarThenLit ("risk score".toList) r2 then some d else none

/-- `/score[:\s]*(\d+)\/100/i` at a position.  `[:\s]*` is greedy, but a
shorter run can never expose a digit at the boundary, so no backtracking
is needed. -/
def scorePat6 (s : List Char) : Option (List Char) := do
  let r1 ← matchLit true ("score".toList) s
  let (_, r2) := takeRun (fun c => c == ':' || isJsWs c) r1
  let (d, r3) ← runPlus Char.isDigit r2
  let _ ← matchLit false ("/100".toList) r3
  some d

/-- `/\(score[:\s]*(\d+)\/100\)/i` at a position. -/
def scorePat7 (s : List Char) : Option (List Char) := do
  let r1 ← matchLit true ("(score".toList) s
  let (_, r2) := takeRun (fun c => c == ':' || isJsWs c) r1
  let (d, r3) ← runPlus Char.isDigit r2
  let r4 ← matchLit false ("/100".toList) r3
  let _ ← matchLit false (")".toList) r4
  some d

/-- The ordered `scoreRegexes` list of `extractScore`, each entry lifted
to a leftmost-match search returning the captured digit group. -/
def scoreRegexes : List (List Char → Option (List Char)) :=
  [scanFirstAux scorePat1, scanFirstAux scorePat2, scanFirstAux scorePat3,
   scanFirstAux scorePat4, scanFirstAux scorePat5, scanFirstAux scorePat6,
   scanFirstAux scorePat7]

/-- `parseInt(digits, 10)` on a non-empty digit capture. -/
def parseDigits (d : List Char) : Int :=
  Int.ofNat (d.foldl (fun acc c => 10 * acc + (c.toNat - 48)) 0)

/-- The `for (const regex of scoreRegexes)` loop of `extractScore`: the
first match whose parsed value lies in `[0, 100]` is returned; an
out-of-range match falls through to the next template. -/
def tryScorePatterns : List (List Char → Option (List Char)) → List Char → Option Int
  | [], _ => none
  | p :: ps, t =>
    match p t with
    | some d =>
      let score := parseDigits d
      if 0 ≤ score ∧ score ≤ 100 then some score else tryScorePatterns ps t
    | none => tryScorePatterns ps t

/-- `extractScore` (part_000 lines 65-113): `100` for empty text, else the
first in-range explicit `<n>/100` template match, else `null`. -/
def extractScore (auditText : List Char) : Option Int :=
  if auditText = [] then some 100
  else tryScorePatterns scoreRegexes auditText

/-- Number of findings with the given severity (the `filter(...).length`
counts of the fallback score calculation). -/
def countSev (sv : Sev) (fs : List Finding) : Nat :=
  (fs.filter (fun f => f.severity = sv)).length

/-- `const backendScore = auditText ? extractScore(auditText) : null`
(part_000 line 241). -/
def backendScore (auditText : List Char) : Option Int :=
  if auditText = [] then none else extractScore auditText

/-- The score resolution of the `Report` component (part_000 lines
240-294): the backend score when non-null; otherwise the severity-count
fallback over the extracted findings; `100` when there are no findings. -/
def resolveScore (auditText : List Char) (auditFindings : List Finding) : Int :=
  match backendScore auditText with
  | some s => s
  | none =>
    if auditFindings.length > 0 then
      let criticalCount : Int := countSev Sev.HIGH auditFindings
      let highCount : Int := countSev Sev.MED auditFindings
      let mediumCount : Int := countSev Sev.LOW auditFindings
      if criticalCount > 0 then max 5 (15 - criticalCount * 5)
      else if highCount > 0 then max 20 (100 - highCount * 25)
      else if mediumCount > 0 then max 60 (100 - mediumCount * 15)
      else 100
    else 100

/-- The severity-count formula as the specification states it: branch on
which severities are present, with the HIGH branch constants
`floor = 5`, `ceiling = 15`, `k = 5`. -/
def severityCountScore (fs : List Finding) : Int :=
  if countSev Sev.HIGH fs > 0 then max 5 (15 - (countSev Sev.HIGH fs : Int) * 5)
  else if countSev Sev.MED fs > 0 then max 20 (100 - (countSev Sev.MED fs : Int) * 25)
  else if countSev Sev.LOW fs > 0 then max 60 (100 - (countSev Sev.LOW fs : Int) * 15)
  else 100

/-- One regex match: whole matched text and the two capture groups
(`match[0]`, `match[1]`, `match[2]`). -/
structure MRes where
  whole : List Char
  cap1 : List Char
  cap2 : Option (List Char)

/-- The whole text consumed by a matcher that turned `s` into `rest`. -/
def consumed (s rest : List Char) : List Char :=
  s.take (s.length - rest.length)

/-- `/vulnerability:?\s*\*\*([^*]+)\*\*\s*\(([^)]+)\)/gi` at a position. -/
def vulnPat1 (s : List Char) : Option (MRes × List Char) := do
  let r1 ← matchLit true ("vulnerability".toList) s
  let r2 := match r1 with
    | ':' :: t => t
    | t => t
  let (_, r3) := takeRun isJsWs r2
  let r4 ← matchLit false ("**".toList) r3
  let (c1, r5) ← runPlus (fun c => c != '*') r4
  let r6 ← matchLit false ("**".toList) r5
  let (_, r7) := takeRun isJsWs r6
  let r8 ← matchLit false ("(".toList) r7
  let (c2, r9) ← runPlus (fun c => c != ')') r8
  let r10 ← matchLit false (")".toList) r9
  some ({ whole := consumed s r10, cap1 := c1, cap2 := some c2 }, r10)

/-- `/\*\*([^*]+)\*\*\s*vulnerability/gi` at a position. -/
def vulnPat2 (s : List Char) : Option (MRes × List Char) := do
  let r1 ← matchLit false ("**".toList) s
  let (c1, r2) ← runPlus (fun c => c != '*') r1
  let r3 ← matchLit false ("**".toList) r2
  let (_, r4) := takeRun isJsWs r3
  let r5 ← matchLit true ("vulnerability".toList) r4
  some ({ whole := consumed s r5, cap1 := c1, cap2 := none }, r5)

/-- Backtracking tail `[:\s]*([^\n.]+)` of the third template: JS tries
the longest `[:\s]` run first and shortens it until the capture can
start; `j` is the run length still being tried. -/
def vulnPat3Tail (rest : List Char) : Nat → Option (List Char × List Char)
  | 0 => runPlus (fun c => c != '\n' && c != '.') rest
  | j + 1 =>
    match runPlus (fun c => c != '\n' && c != '.') (rest.drop (j + 1)) with
    | some (c1, r) => some (c1, r)
    | none => vulnPat3Tail rest j

/-- `/critical\s+vulnerability[:\s]*([^\n.]+)/gi` at a position. -/
def vulnPat3 (s : List Char) : Option (MRes × List Char) := do
  let r1 ← matchLit true ("critical".toList) s
  let (_, r2) ← runPlus isJsWs r1
  let r3 ← matchLit true ("vulnerability".toList) r2
  let (runA, _) := takeRun (fun c => c == ':' || isJsWs c) r3
  let (c1, r4) ← vulnPat3Tail r3 runA.length
  some ({ whole := consumed s r4, cap1 := c1, cap2 := none }, r4)

/-- `/SAFE-([A-Z0-9]+)\s*\([^)]*\)/gi` at a position (the `/i` flag makes
the class match lower-case letters as well). -/
def vulnPat4 (s : List Char) : Option (MRes × List Char) := do
  let r1 ← matchLit true ("SAFE-".toList) s
  let (c1, r2) ← runPlus Char.isAlphanum r1
  let (_, r3) := takeRun isJsWs r2
  let r4 ← matchLit false ("(".toList) r3
  let (_, r5) := takeRun (fun c => c != ')') r4
  let r6 ← matchLit false (")".toList) r5
  some ({ whole := consumed s r6, cap1 := c1, cap2 := none }, r6)

/-- Backtracking tail `\s*([^*]+)` of the fifth template: JS tries the
longest whitespace run first and shortens it until the capture can
start; `j` is the run length still being tried.  Whatever `j` succeeds,
the capture ends at the same first asterisk, so the closing `\*\*` is
checked once afterwards. -/
def vulnPat5Tail (rest : List Char) : Nat → Option (List Char × List Char)
  | 0 => runPlus (fun c => c != '*') rest
  | j + 1 =>
    match runPlus (fun c => c != '*') (rest.drop (j + 1)) with
    | some (c2, r) => some (c2, r)
    | none => vulnPat5Tail rest j

/-- `/\*\*SAFE-([A-Z0-9]+):\s*([^*]+)\*\*/gi` at a position. -/
def vulnPat5 (s : List Char) : Option (MRes × List Char) := do
  let r1 ← matchLit true ("**SAFE-".toList) s
  let (c1, r2) ← runPlus Char.isAlphanum r1
  let r3 ← matchLit false (":".toList) r2
  let (runA, _) := takeRun isJsWs r3
  let (c2, r5) ← vulnPat5Tail r3 runA.length
  let r6 ← matchLit false ("**".toList) r5
  some ({ whole := consumed s r6, cap1 := c1, cap2 := some c2 }, r6)

/-- `/####\s*\d+\.\s*\*\*([^*]+)\*\*\s*\(([^)]+)\)/gi` at a position. -/
def vulnPat6 (s : List Char) : Option (MRes × List Char) := do
  let r1 ← matchLit false ("####".toList) s
  let (_, r2) := takeRun isJsWs r1
  let (_, r3) ← runPlus Char.isDigit r2
  let r4 ← matchLit false (".".toList) r3
  let (_, r5) := takeRun isJsWs r4
  let r6 ← matchLit false ("**".toList) r5
  let (c1, r7) ← runPlus (fun c => c != '*') r6
  let r8 ← matchLit false ("**".toList) r7
  let (_, r9) := takeRun isJsWs r8
  let r10 ← matchLit false ("(".toList) r9
  let (c2, r11) ← runPlus (fun c => c != ')') r10
  let r12 ← matchLit false (")".toList) r11
  some ({ whole := consumed s r12, cap1 := c1, cap2 := some c2 }, r12)

/-- Does the text contain `SAFE-` (case-insensitive) followed by at least
one alphanumeric character?  Inner condition of the seventh template. -/
def containsSafeCode : List Char → Bool
  | [] => false
  | c :: t =>
    (match matchLit true ("SAFE-".toList) (c :: t) with
     | some r => (runPlus Char.isAlphanum r).isSome
     | none => false) || containsSafeCode t

/-- `/\*\*([^*]*SAFE-[A-Z0-9]+[^*]*)\*\*/gi` at a position: the capture is
always the full `[^*]` run between the bold markers, because the trailing
`[^*]*` is greedy and the closing `\*\*` cannot occur inside the run. -/
def vulnPat7 (s : List Char) : Option (MRes × List Char) := do
  let r1 ← matchLit false ("**".toList) s
  let (c1, r2) := takeRun (fun c => c != '*') r1
  if containsSafeCode c1 then
    let r3 ← matchLit false ("**".toList) r2
    some ({ whole := consumed s r3, cap1 := c1, cap2 := none }, r3)
  else none

/-- `String.prototype.matchAll`: repeatedly find the leftmost match and
continue after it (advancing one character on an empty match).  The fuel
`length + 1` suffices since every step consumes at least one character. -/
def scanAllAux (m : List Char → Option (MRes × List Char)) : Nat → List Char → List MRes
  | 0, _ => []
  | _ + 1, [] =>
    match m [] with
    | some (r, _) => [r]
    | none => []
  | fuel + 1, c :: t =>
    match m (c :: t) with
    | some (r, rest) =>
      if r.whole.isEmpty then r :: scanAllAux m fuel t
      else r :: scanAllAux m fuel rest
    | none => scanAllAux m fuel t

/-- All matches of one template in the audit text. -/
def matchAllPat (m : List Char → Option (MRes × List Char)) (t : List Char) : List MRes :=
  scanAllAux m (t.length + 1) t

/-- Decimal numeral of a natural number. -/
def natToChars (n : Nat) : List Char := (Nat.repr n).toList

/-- The 200-character clip with ellipsis applied to fallback
descriptions. -/
def clipDescription (d : List Char) : List Char :=
  if d.length > 200 then d.take 200 ++ ("...".toList) else d

/-- One fallback `Finding` built from a template match (the body of the
`matches.map` in `extractVulnerabilities`). -/
def buildTextFinding (idx : Nat) (r : MRes) : Finding :=
  let description :=
    let d1 := jsTrim r.cap1
    if d1.isEmpty then
      let d0 := jsTrim r.whole
      if d0.isEmpty then "Vulnerability detected".toList else d0
    else d1
  let tag0 :=
    match r.cap2 with
    | some c2 =>
      let t0 := c2.takeWhile (fun c => c != ' ')
      if t0.isEmpty then "VULN-".toList ++ natToChars (idx + 1) else t0
    | none => "VULN-".toList ++ natToChars (idx + 1)
  { id := "audit-text-".toList ++ natToChars idx
    tag := if tag0.length > 20 then tag0.take 20 else tag0
    severity := Sev.HIGH
    description := Json.str (clipDescription description)
    evidence :=
      { request := "MCP Server Inspection".toList
        response := description
        explanation := Json.str ("Extracted from audit text analysis".toList) } }

/-- Index-decorated map over the match list. -/
def buildTextFindings (idx : Nat) : List MRes → List Finding
  | [] => []
  | r :: rs => buildTextFinding idx r :: buildTextFindings (idx + 1) rs

/-- The `for (const pattern of textPatterns)` loop: the first template
with at least one match wins, and its findings are truncated to 10
(`slice(0, 10)`). -/
def tryTextPatterns : List (List Char → Option (MRes × List Char)) → List Char →
    Option (List Finding)
  | [], _ => none
  | m :: ms, t =>
    let rs := matchAllPat m t
    if rs.length > 0 then some ((buildTextFindings 0 rs).take 10)
    else tryTextPatterns ms t

/-- The ordered `textPatterns` list of strategy 2. -/
def textPatterns : List (List Char → Option (MRes × List Char)) :=
  [vulnPat1, vulnPat2, vulnPat3, vulnPat4, vulnPat5, vulnPat6, vulnPat7]

/-- Strategy-2 extraction over the full audit text. -/
def textPatternExtract (t : List Char) : Option (List Finding) :=
  tryTextPatterns textPatterns t

/-- Lazy capture `([\s\S]*?)` up to the first occurrence of `stop`
(failing when `stop` never occurs). -/
def lazyUpTo (stop : Char) : List Char → Option (List Char)
  | [] => none
  | c :: t => if c = stop then some [] else (lazyUpTo stop t).map (c :: ·)

/-- `/"vulnerabilities"\s*:\s*\[([\s\S]*?)\]/` at a position. -/
def vulnKeyAt (s : List Char) : Option (List Char) := do
  let r1 ← matchLit false ("\"vulnerabilities\"".toList) s
  let (_, r2) := takeRun isJsWs r1
  let r3 ← matchLit false (":".toList) r2
  let (_, r4) := takeRun isJsWs r3
  let r5 ← matchLit false ("[".toList) r4
  lazyUpTo ']' r5

/-- Leftmost match of the `vulnerabilities` key regex: the text between
the opening bracket and the first following closing bracket. -/
def vulnCapture (t : List Char) : Option (List Char) := scanFirstAux vulnKeyAt t

/-- Severity mapping of strategy 1 (`critical`/`high` to HIGH, `medium`
to MED, everything else to LOW; strict equality, so non-strings fall to
LOW). -/
def sevOfType (safeType : Json) : Sev :=
  match safeType with
  | Json.str s =>
    if s = "critical".toList || s = "high".toList then Sev.HIGH
    else if s = "medium".toList then Sev.MED
    else Sev.LOW
  | _ => Sev.LOW

/-- Find the first occurrence of (non-empty) `sep`, returning the text
before it and the text after it. -/
def splitFindSep (sep : List Char) : List Char → Option (List Char × List Char)
  | [] =>
    match matchLit false sep [] with
    | some r => some ([], r)
    | none => none
  | c :: t =>
    match matchLit false sep (c :: t) with
    | some r => some ([], r)
    | none => (splitFindSep sep t).map (fun p => (c :: p.1, p.2))

/-- Fuel-driven splitting on a separator. -/
def splitOnSepFuel (sep : List Char) : Nat → List Char → List (List Char)
  | 0, s => [s]
  | fuel + 1, s =>
    match splitFindSep sep s with
    | none => [s]
    | some (chunk, rest) => chunk :: splitOnSepFuel sep fuel rest

/-- `String.prototype.split` with a non-empty string separator. -/
def jsSplit (sep s : List Char) : List (List Char) :=
  splitOnSepFuel sep (s.length + 1) s

/-- The body of the `vulns.map` of strategy 1, on one parsed array
element.  `none` models the `TypeError` thrown by `safeName.split` when
the `name` field is a truthy non-string; the surrounding `try` catches it
and strategy 1 yields nothing. -/
def mapVuln (idx : Nat) (v : Json) : Option Finding :=
  let safeType := match objGet v ("type".toList) with
    | some j => if jsTruthy j then j else Json.str ("unknown".toList)
    | none => Json.str ("unknown".toList)
  let safeCause := match objGet v ("cause".toList) with
    | some j => if jsTruthy j then j else Json.str ("No description available".toList)
    | none => Json.str ("No description available".toList)
  let safeNameOpt : Option (List Char) := match objGet v ("name".toList) with
    | some j =>
      if jsTruthy j then
        match j with
        | Json.str s => some s
        | _ => none
      else some ("Unknown Vulnerability".toList)
    | none => some ("Unknown Vulnerability".toList)
  match safeNameOpt with
  | none => none
  | some safeName =>
    let parts := jsSplit (" - ".toList) safeName
    let tag := match parts.drop 1 with
      | p :: _ => if p.isEmpty then "AUDIT".toList else p
      | [] => "AUDIT".toList
    some { id := "audit-".toList ++ natToChars idx
           tag := tag
           severity := sevOfType safeType
           description := safeCause
           evidence := { request := "MCP Server Inspection".toList
                         response := safeName
                         explanation := safeCause } }

/-- `vulns.map((v, idx) => ...)` on the parsed array. -/
def mapVulns (idx : Nat) : List Json → Option (List Finding)
  | [] => some []
  | v :: vs =>
    match mapVuln idx v with
    | none => none
    | some f => (mapVulns (idx + 1) vs).map (f :: ·)

/-- Strategy-1 array location and parse: the capture of the
`vulnerabilities` regex, rewrapped in brackets and fed to `JSON.parse`.
The source guards with `if (match && match[1])`, so an exactly-empty
capture (from `"vulnerabilities": []`) is falsy and strategy 1 is
skipped. -/
def extractJsonArray (t : List Char) : Option (List Json) :=
  match vulnCapture t with
  | none => none
  | some inner =>
    if inner.isEmpty then none
    else
      match jsonParse ('[' :: (inner ++ [']'])) with
      | some (Json.arr vs) => some vs
      | _ => none

/-- Strategy-1 findings: parsed array mapped through `mapVuln`; any
mapping exception voids the whole strategy. -/
def extractJsonFindings (t : List Char) : Option (List Finding) :=
  (extractJsonArray t).bind (mapVulns 0)

/-- `extractVulnerabilities` (part_000 lines 115-234): empty list for
empty text, else strategy 1 (structured JSON), else strategy 2 (text
templates, truncated to 10), else the empty list. -/
def extractVulnerabilities (t : List Char) : List Finding :=
  if t = [] then []
  else
    match extractJsonFindings t with
    | some fs => fs
    | none =>
      match textPatternExtract t with
      | some fs => fs
      | none => []

/-- The synthetic "inspection completed" finding substituted by the
report assembly when extraction yields nothing (part_000 lines 301-317). -/
def syntheticFinding (serverSpec : Option (List Char)) : Finding :=
  { id := "1".toList
    tag := "INSPECTION".toList
    severity := Sev.LOW
    description := Json.str ("MCP server inspection completed successfully".toList)
    evidence :=
      { request := "Inspect API call".toList
        response := "Server: ".toList ++
          (match serverSpec with
           | some s => if s.isEmpty then "Unknown".toList else s
           | none => "Unknown".toList)
        explanation :=
          Json.str ("Basic server connectivity and capability enumeration successful.".toList) } }

/-- `reportData.findings` (part_000 lines 296-317): the extracted
findings, or exactly one synthetic LOW finding when there are none. -/
def reportFindings (auditFindings : List Finding) (serverSpec : Option (List Char)) :
    List Finding :=
  if auditFindings.length > 0 then auditFindings else [syntheticFinding serverSpec]

/-- JS `chunk.split("\n")` of the stream-reading loops (part_001 line
737, part_000 line 486). -/
def splitNL : List Char → List (List Char)
  | [] => [[]]
  | c :: rest =>
    if c = '\n' then [] :: splitNL rest
    else
      match splitNL rest with
      | [] => [[c]]
      | l :: ls => (c :: l) :: ls

/-- `if (line.trim())`: the line survives the blank filter. -/
def lineNonBlank (l : List Char) : Bool := !(jsTrim l).isEmpty

/-- The ordered sequence of candidate frames the loop hands to
`JSON.parse`: each chunk is split on newlines independently (no partial
line is carried from one chunk to the next). -/
def emittedLines (chunks : List (List Char)) : List (List Char) :=
  chunks.flatMap (fun c => (splitNL c).filter lineNonBlank)

/-- Message classification of one frame (`msg.type === "assistant" &&
msg.content[0].type === "text"`, then `msg.content[0].text`); `none`
covers both JSON-parse failures and the per-line `catch`. -/
def assistantTextOf (line : List Char) : Option (List Char) :=
  match jsonParse line with
  | none => none
  | some msg =>
    match objGet msg ("type".toList) with
    | some (Json.str ty) =>
      if ty = "assistant".toList then
        match objGet msg ("content".toList) with
        | some (Json.arr (c0 :: _)) =>
          match objGet c0 ("type".toList) with
          | some (Json.str cty) =>
            if cty = "text".toList then
              match objGet c0 ("text".toList) with
              | some j => some (jsonRender j)
              | none => some ("undefined".toList)
            else none
          | _ => none
        | _ => none
      else none
    | _ => none

/-- One iteration of the read loop on one decoded chunk: split on
newlines, parse each non-blank line, append assistant text (plus a
newline) to the accumulated audit text. -/
def processChunk (acc : List Char) (chunk : List Char) : List Char :=
  (splitNL chunk).foldl
    (fun a line =>
      if lineNonBlank line then
        match assistantTextOf line with
        | some s => a ++ s ++ ['\n']
        | none => a
      else a) acc

/-- The whole read loop of `performUrlScan`: the audit text accumulated
from a sequence of decoded chunks. -/
def runStream (chunks : List (List Char)) : List Char :=
  chunks.foldl processChunk []

/-- A classified stream message, as far as the progress updates care:
an assistant-text message or anything else. -/
inductive StreamMsg where
  | assistantText (s : List Char)
  | otherMsg

/-- Progress update for one message:
`setProgress((prev) => Math.min(prev + 5, 100))` on assistant text,
nothing otherwise (part_001 line 753). -/
def progressStep (p : Int) (m : StreamMsg) : Int :=
  match m with
  | StreamMsg.assistantText _ => min (p + 5) 100
  | StreamMsg.otherMsg => p

/-- Progress after a prefix of the stream, starting from the
`setProgress(60)` issued when the audit stream opens. -/
def streamProgress (msgs : List StreamMsg) : Int :=
  msgs.foldl progressStep 60

/-! Concrete inputs used by the witness and counterexample theorems. -/

/-- An audit text with two bold-tagged callouts and no structured JSON
array. -/
def tC6 : List Char :=
  ("Found vulnerability: **SQL Injection** (SQLI critical) and later vulnerability: **XSS** (XSS)").toList

/-- The two fallback findings extracted from `tC6`. -/
def fsC6 : List Finding :=
  [{ id := ("audit-text-0").toList, tag := ("SQLI").toList, severity := Sev.HIGH,
     description := Json.str (("SQL Injection").toList),
     evidence := { request := ("MCP Server Inspection").toList,
                   response := ("SQL Injection").toList,
                   explanation := Json.str (("Extracted from audit text analysis").toList) } },
   { id := ("audit-text-1").toList, tag := ("XSS").toList, severity := Sev.HIGH,
     description := Json.str (("XSS").toList),
     evidence := { request := ("MCP Server Inspection").toList,
                   response := ("XSS").toList,
                   explanation := Json.str (("Extracted from audit text analysis").toList) } }]

/-- An audit text containing both a parseable `vulnerabilities` JSON
array and a bold-tagged callout. -/
def tC5 : List Char :=
  ("report \"vulnerabilities\": [\x7b\"name\":\"Vuln - SQLI\",\"type\":\"high\",\"cause\":\"bad\"\x7d] plus vulnerability: **XSS** (XSS)").toList

/-- The single JSON-derived finding of `tC5`. -/
def fsC5 : List Finding :=
  [{ id := ("audit-0").toList, tag := ("SQLI").toList, severity := Sev.HIGH,
     description := Json.str (("bad").toList),
     evidence := { request := ("MCP Server Inspection").toList,
                   response := ("Vuln - SQLI").toList,
                   explanation := Json.str (("bad").toList) } }]

/-- An audit text whose located `vulnerabilities` array fails to parse. -/
def tC7 : List Char := ("summary \"vulnerabilities\": [oops] end").toList

/-- An audit text whose `vulnerabilities` array holds eleven elements. -/
def t10 : List Char :=
  ("\"vulnerabilities\": [\x7b\x7d,\x7b\x7d,\x7b\x7d,\x7b\x7d,\x7b\x7d,\x7b\x7d,\x7b\x7d,\x7b\x7d,\x7b\x7d,\x7b\x7d,\x7b\x7d]").toList

/-- The parsed array of `t10`: eleven empty objects. -/
def vs10 : List Json := List.replicate 11 (Json.obj [])

/-- The eleven default-filled findings mapped from `vs10`. -/
def fs10 : List Finding :=
  (List.range 11).map (fun i =>
    { id := ("audit-").toList ++ natToChars i, tag := ("AUDIT").toList, severity := Sev.LOW,
      description := Json.str (("No description available").toList),
      evidence := { request := ("MCP Server Inspection").toList,
                    response := ("Unknown Vulnerability").toList,
                    explanation := Json.str (("No description available").toList) } })

/-- An audit text with an explicit in-range score phrase. -/
def tC8 : List Char := ("Overall security score of 42/100 for this server.").toList

/-- An audit text with no explicit score phrase. -/
def tC3 : List Char := ("three issues were found").toList

/-- A HIGH-severity finding used to exercise the fallback formula. -/
def fHigh : Finding :=
  { id := ("f").toList, tag := ("T").toList, severity := Sev.HIGH,
    description := Json.str (("d").toList),
    evidence := { request := ("r").toList, response := ("p").toList,
                  explanation := Json.str (("e").toList) } }

/-- Exactly three HIGH findings. -/
def fs3 : List Finding := [fHigh, fHigh, fHigh]

/-- One newline-terminated NDJSON assistant message, as the audit stream
delivers it. -/
def payloadC1 : List Char :=
  ("\x7b\"type\":\"assistant\",\"content\":[\x7b\"type\":\"text\",\"text\":\"hi\"\x7d]\x7d\n").toList

/-! Theorems. -/

theorem tryScorePatterns_bounds :
    ∀ (ps : List (List Char → Option (List Char))) (t : List Char) (v : Int),
      tryScorePatterns ps t = some v → 0 ≤ v ∧ v ≤ 100 := by
  intro ps
  induction ps with
  | nil => intro t v h; simp [tryScorePatterns] at h
  | cons p ps ih =>
    intro t v h
    simp only [tryScorePatterns] at h
    cases hp : p t with
    | none => rw [hp] at h; exact ih t v h
    | some d =>
      rw [hp] at h
      dsimp only at h
      split at h
      · rename_i hr
        cases h
        exact hr
      · exact ih t v h

theorem extractScore_bounds (t : List Char) (v : Int) (h : extractScore t = some v) :
    0 ≤ v ∧ v ≤ 100 := by
  unfold extractScore at h
  by_cases ht : t = []
  · rw [if_pos ht] at h
    cases h
    norm_num
  · rw [if_neg ht] at h
    exact tryScorePatterns_bounds _ _ _ h

theorem backendScore_bounds (t : List Char) (v : Int) (h : backendScore t = some v) :
    0 ≤ v ∧ v ≤ 100 := by
  unfold backendScore at h
  by_cases ht : t = []
  · rw [if_pos ht] at h; cases h
  · rw [if_neg ht] at h; exact extractScore_bounds t v h

/-- Claim C2: for every audit text and every extracted finding list, the
resolved score is an integer in `[0, 100]`: the explicit-score path only
accepts parsed values between 0 and 100, and every branch of the
severity-count fallback produces a value in `[0, 100]`. -/
theorem c2_score_resolver_in_range (t : List Char) (fs : List Finding) :
    0 ≤ resolveScore t fs ∧ resolveScore t fs ≤ 100 := by
  unfold resolveScore
  cases hE : backendScore t with
  | some s =>
    simpa using backendScore_bounds t s hE
  | none =>
    have hH : (0 : Int) ≤ countSev Sev.HIGH fs := Int.natCast_nonneg _
    have hM : (0 : Int) ≤ countSev Sev.MED fs := Int.natCast_nonneg _
    have hL : (0 : Int) ≤ countSev Sev.LOW fs := Int.natCast_nonneg _
    simp only []
    split_ifs with h1 h2 h3 h4 <;>
      constructor <;>
      (try simp only [le_max_iff, max_le_iff]) <;>
      omega

/-- Claim C3: when no explicit score phrase is found, the score is the
severity-count formula — `max(5, 15 − 5·countHIGH)` when a HIGH finding
exists, else `max(20, 100 − 25·countMED)`, else `max(60, 100 − 15·countLOW)`,
else `100`. -/
theorem c3_severity_fallback_formula (t : List Char) (fs : List Finding)
    (h : backendScore t = none) :
    resolveScore t fs = severityCountScore fs := by
  unfold resolveScore
  rw [h]
  by_cases hlen : fs.length > 0
  · rw [if_pos hlen]
    unfold severityCountScore
    have e1 : ((countSev Sev.HIGH fs : Int) > 0) = (countSev Sev.HIGH fs > 0) := by
      simp [Int.natCast_pos]
    have e2 : ((countSev Sev.MED fs : Int) > 0) = (countSev Sev.MED fs > 0) := by
      simp [Int.natCast_pos]
    have e3 : ((countSev Sev.LOW fs : Int) > 0) = (countSev Sev.LOW fs > 0) := by
      simp [Int.natCast_pos]
    simp only [e1, e2, e3]
  · rw [if_neg hlen]
    have : fs = [] := by
      cases fs with
      | nil => rfl
      | cons f fs' => simp at hlen
    subst this
    decide

/-- Claim C3 witness: with no explicit score phrase and exactly three
HIGH findings the fallback yields the pinned output 5. -/
theorem c3_severity_fallback_formula_witness :
    backendScore tC3 = none ∧ resolveScore tC3 fs3 = severityCountScore fs3 ∧
      severityCountScore fs3 = 5 :=
  ⟨rfl, c3_severity_fallback_formula tC3 fs3 rfl, by decide⟩

/-- Claim C8: when the ordered explicit-score scan finds a match whose
parsed value lies in `[0, 100]`, the resolved score equals that value
for every finding list — the severity-count fallback is never applied —
and the value is in range. -/
theorem c8_explicit_score_authoritative (t : List Char) (fs : List Finding) (s : Int)
    (h : backendScore t = some s) :
    resolveScore t fs = s ∧ 0 ≤ s ∧ s ≤ 100 := by
  refine ⟨?_, backendScore_bounds t s h⟩
  unfold resolveScore
  rw [h]

/-- Claim C8 witness: an explicit `42/100` phrase wins over three HIGH
findings whose fallback value would be 5. -/
theorem c8_explicit_score_authoritative_witness :
    backendScore tC8 = some 42 ∧ resolveScore tC8 fs3 = 42 ∧ severityCountScore fs3 = 5 :=
  ⟨rfl, (c8_explicit_score_authoritative tC8 fs3 42 rfl).1, by decide⟩

/-- Claim C9: the assembled report findings list is never empty — an
empty extraction is replaced by exactly the one synthetic "inspection
completed" LOW finding, and a non-empty extraction is passed through
unchanged. -/
theorem c9_report_findings_never_empty (fs : List Finding) (spec : Option (List Char)) :
    reportFindings fs spec ≠ [] ∧
      (fs = [] → reportFindings fs spec = [syntheticFinding spec]) ∧
      (fs ≠ [] → reportFindings fs spec = fs) := by
  unfold reportFindings
  cases fs with
  | nil => simp
  | cons f fs' => simp

/-- Claim C9 witness: the substitution happens exactly on the empty
list, and `syntheticFinding` has severity LOW. -/
theorem c9_report_findings_never_empty_witness :
    reportFindings [] none = [syntheticFinding none] ∧
      reportFindings [fHigh] none = [fHigh] ∧
      (syntheticFinding none).severity = Sev.LOW :=
  ⟨(c9_report_findings_never_empty [] none).2.1 rfl,
   (c9_report_findings_never_empty [fHigh] none).2.2 (by simp),
   rfl⟩

theorem foldl_progressStep_bounds (msgs : List StreamMsg) :
    ∀ p : Int, p ≤ 100 → p ≤ msgs.foldl progressStep p ∧ msgs.foldl progressStep p ≤ 100 := by
  induction msgs with
  | nil => intro p hp; exact ⟨le_refl p, hp⟩
  | cons m ms ih =>
    intro p hp
    have h1 : p ≤ progressStep p m := by
      cases m <;> simp only [progressStep] <;> omega
    have h2 : progressStep p m ≤ 100 := by
      cases m <;> simp only [progressStep] <;> omega
    obtain ⟨ha, hb⟩ := ih (progressStep p m) h2
    exact ⟨le_trans h1 (by simpa using ha), by simpa using hb⟩

/-- Claim C4 (amended): along the streaming loop, progress starts at 60,
never exceeds 100, is monotonically non-decreasing from message to
message, and each message advances it by at most 5; the cap is
inclusive, so progress can reach 100 before the terminal message (see
the counterexample). -/
theorem c4_progress_monotone_bounded (msgs : List StreamMsg) (m : StreamMsg) :
    60 ≤ streamProgress msgs ∧ streamProgress msgs ≤ 100 ∧
      streamProgress msgs ≤ streamProgress (msgs ++ [m]) ∧
      streamProgress (msgs ++ [m]) ≤ streamProgress msgs + 5 := by
  obtain ⟨ha, hb⟩ := foldl_progressStep_bounds msgs 60 (by norm_num)
  have ha' : 60 ≤ streamProgress msgs := ha
  have hb' : streamProgress msgs ≤ 100 := hb
  clear ha hb
  have happ : streamProgress (msgs ++ [m]) = progressStep (streamProgress msgs) m := by
    simp [streamProgress, List.foldl_append]
  refine ⟨ha', hb', ?_, ?_⟩ <;> rw [happ] <;>
    cases m <;> simp only [progressStep] <;> omega

/-- Claim C4 counterexample: after the audit stream opens (progress 60),
eight assistant-text messages alone drive progress to exactly 100 — the
per-message update `Math.min(prev + 5, 100)` caps at 100 inclusively, so
progress is not kept below 100 until a terminal message arrives. -/
theorem c4_progress_hits_100_before_terminal :
    streamProgress (List.replicate 8 (StreamMsg.assistantText [' '])) = 100 ∧
      ¬ streamProgress (List.replicate 8 (StreamMsg.assistantText [' '])) < 100 := by
  constructor <;> decide

/-- Claim C1 (spec guarantee refuted by the code): the read loop splits
each chunk on newlines independently and carries no partial-line buffer,
so a record split across two chunks is handed to `JSON.parse` as two
fragments.  Fed whole, `payloadC1` contributes its assistant text; split
mid-line, it contributes nothing, and the emitted line sequences differ
(two fragment lines instead of the one reassembled record). -/
theorem c1_frame_reader_drops_split_record :
    runStream [payloadC1] = ("hi\n").toList ∧
      runStream [payloadC1.take 30, payloadC1.drop 30] = [] ∧
      (emittedLines [payloadC1.take 30, payloadC1.drop 30]).length = 2 ∧
      (emittedLines [payloadC1]).length = 1 :=
  ⟨rfl, rfl, rfl, rfl⟩

/-- Claim C5: when strategy 1 locates a parseable vulnerabilities array
yielding a non-empty finding list, extraction returns exactly those
JSON-derived findings for every text — the text templates are never
consulted. -/
theorem c5_structured_strategy_precedence (t : List Char) (fs : List Finding)
    (h1 : extractJsonFindings t = some fs) (h2 : fs ≠ []) :
    extractVulnerabilities t = fs := by
  have ht : ¬ t = [] := by
    intro he
    subst he
    rw [show extractJsonFindings ([] : List Char) = none from rfl] at h1
    cases h1
  unfold extractVulnerabilities
  rw [if_neg ht, h1]

/-- Claim C5 witness: `tC5` holds both a structured array and a
bold-tagged callout; extraction returns only the JSON-derived finding. -/
theorem c5_structured_strategy_precedence_witness :
    extractJsonFindings tC5 = some fsC5 ∧ (textPatternExtract tC5).isSome = true ∧
      extractVulnerabilities tC5 = fsC5 :=
  ⟨rfl, rfl, c5_structured_strategy_precedence tC5 fsC5 rfl (List.cons_ne_nil _ _)⟩

theorem tryTextPatterns_shape :
    ∀ (ms : List (List Char → Option (MRes × List Char))) (t : List Char) (fs : List Finding),
      tryTextPatterns ms t = some fs → ∃ rs, fs = (buildTextFindings 0 rs).take 10 := by
  intro ms
  induction ms with
  | nil => intro t fs h; simp [tryTextPatterns] at h
  | cons m ms ih =>
    intro t fs h
    simp only [tryTextPatterns] at h
    split at h
    · exact ⟨matchAllPat m t, (Option.some.inj h).symm⟩
    · exact ih t fs h

theorem clipDescription_length (d : List Char) : (clipDescription d).length ≤ 203 := by
  unfold clipDescription
  split_ifs with h
  · have h3 : ("...".toList).length = 3 := rfl
    simp only [List.length_append, List.length_take, h3]
    omega
  · omega

theorem buildTextFinding_props (idx : Nat) (r : MRes) :
    (buildTextFinding idx r).severity = Sev.HIGH ∧
      ∃ d, (buildTextFinding idx r).description = Json.str d ∧ d.length ≤ 203 := by
  unfold buildTextFinding
  dsimp only
  exact ⟨rfl, _, rfl, clipDescription_length _⟩

theorem buildTextFindings_mem :
    ∀ (rs : List MRes) (idx : Nat) (f : Finding), f ∈ buildTextFindings idx rs →
      f.severity = Sev.HIGH ∧ ∃ d, f.description = Json.str d ∧ d.length ≤ 203 := by
  intro rs
  induction rs with
  | nil => intro idx f h; simp [buildTextFindings] at h
  | cons r rs ih =>
    intro idx f h
    simp only [buildTextFindings, List.mem_cons] at h
    rcases h with h | h
    · subst h; exact buildTextFinding_props idx r
    · exact ih (idx + 1) f h

/-- Claim C6: whenever strategy 1 yields nothing and a text template
matches, extraction returns the fallback findings: at most 10 of them,
every one with severity HIGH and a description clipped to at most 203
characters (200 plus the ellipsis). -/
theorem c6_text_pattern_fallback (t : List Char) (fs : List Finding)
    (h1 : extractJsonFindings t = none) (h2 : textPatternExtract t = some fs) :
    extractVulnerabilities t = fs ∧ fs.length ≤ 10 ∧
      ∀ f ∈ fs, f.severity = Sev.HIGH ∧ ∃ d, f.description = Json.str d ∧ d.length ≤ 203 := by
  have ht : ¬ t = [] := by
    intro he
    subst he
    rw [show textPatternExtract ([] : List Char) = none from rfl] at h2
    cases h2
  obtain ⟨rs, hrs⟩ := tryTextPatterns_shape textPatterns t fs h2
  refine ⟨?_, ?_, ?_⟩
  · unfold extractVulnerabilities
    rw [if_neg ht, h1, h2]
  · rw [hrs]
    simp only [List.length_take]
    omega
  · intro f hf
    rw [hrs] at hf
    exact buildTextFindings_mem rs 0 f (List.take_subset _ _ hf)

/-- Claim C6 witness: two bold-tagged callouts and no JSON array yield
exactly two HIGH findings with the tags from the matches. -/
theorem c6_text_pattern_fallback_witness :
    extractJsonFindings tC6 = none ∧ textPatternExtract tC6 = some fsC6 ∧
      extractVulnerabilities tC6 = fsC6 ∧ fsC6.length = 2 :=
  ⟨rfl, rfl, (c6_text_pattern_fallback tC6 fsC6 rfl rfl).1, rfl⟩

/-- Claim C7: when strategy 1 locates an array whose contents fail to
parse as JSON, extraction falls through to the text templates (empty
list when none matches); the extractor is total by construction, so no
input can make it throw. -/
theorem c7_malformed_json_falls_through (t inner : List Char)
    (h1 : vulnCapture t = some inner)
    (h2 : jsonParse ('[' :: (inner ++ [']'])) = none) :
    extractVulnerabilities t = (textPatternExtract t).getD [] := by
  have ht : ¬ t = [] := by
    intro he
    subst he
    rw [show vulnCapture ([] : List Char) = none from rfl] at h1
    cases h1
  have hA : extractJsonArray t = none := by
    unfold extractJsonArray
    rw [h1]
    dsimp only
    split_ifs with hi
    · rfl
    · rw [h2]
  have hJ : extractJsonFindings t = none := by
    unfold extractJsonFindings
    rw [hA]
    rfl
  unfold extractVulnerabilities
  rw [if_neg ht, hJ]
  cases hT : textPatternExtract t <;> simp

/-- Claim C7 witness: `tC7` locates an array whose body `oops` fails to
parse; no template matches the rest, so extraction returns the empty
list without failing. -/
theorem c7_malformed_json_falls_through_witness :
    vulnCapture tC7 = some (("oops").toList) ∧
      jsonParse ('[' :: ((("oops").toList) ++ [']'])) = none ∧
      extractVulnerabilities tC7 = [] :=
  ⟨rfl, rfl, (c7_malformed_json_falls_through tC7 (("oops").toList) rfl rfl).trans rfl⟩

theorem mapVulns_length :
    ∀ (vs : List Json) (idx : Nat) (fs : List Finding),
      mapVulns idx vs = some fs → fs.length = vs.length := by
  intro vs
  induction vs with
  | nil =>
    intro idx fs h
    simp only [mapVulns, Option.some.injEq] at h
    subst h
    rfl
  | cons v vs ih =>
    intro idx fs h
    simp only [mapVulns] at h
    cases hv : mapVuln idx v with
    | none => rw [hv] at h; cases h
    | some f =>
      rw [hv] at h
      dsimp only at h
      rcases Option.map_eq_some'.mp h with ⟨fs', hfs', rfl⟩
      simp [ih idx.succ fs' hfs']

/-- Claim C10: the 10-finding cap applies only to the text-pattern
fallback — when the structured strategy parses an array of `n` elements
and the mapping succeeds, extraction returns exactly `n` findings in
array order, with no upper bound; the text-pattern path never returns
more than 10. -/
theorem c10_cap_only_on_text_fallback :
    (∀ (t : List Char) (vs : List Json) (fs : List Finding),
        extractJsonArray t = some vs → mapVulns 0 vs = some fs →
          extractVulnerabilities t = fs ∧ fs.length = vs.length) ∧
      (∀ (t : List Char) (fs : List Finding),
          extractJsonFindings t = none → textPatternExtract t = some fs →
            fs.length ≤ 10) := by
  constructor
  · intro t vs fs hA hm
    have ht : ¬ t = [] := by
      intro he
      subst he
      rw [show extractJsonArray ([] : List Char) = none from rfl] at hA
      cases hA
    have hJ : extractJsonFindings t = some fs := by
      unfold extractJsonFindings
      rw [hA]
      exact hm
    refine ⟨?_, mapVulns_length vs 0 fs hm⟩
    unfold extractVulnerabilities
    rw [if_neg ht, hJ]
  · intro t fs _ h2
    obtain ⟨rs, hrs⟩ := tryTextPatterns_shape textPatterns t fs h2
    rw [hrs]
    simp only [List.length_take]
    omega

/-- Claim C10 witness: an eleven-element array yields eleven findings
(no cap on the structured path), while the fallback on `tC6` stays
within the cap. -/
theorem c10_cap_only_on_text_fallback_witness :
    extractJsonArray t10 = some vs10 ∧ mapVulns 0 vs10 = some fs10 ∧
      extractVulnerabilities t10 = fs10 ∧ fs10.length = 11 ∧ fsC6.length ≤ 10 :=
  ⟨rfl, rfl, (c10_cap_only_on_text_fallback.1 t10 vs10 fs10 rfl rfl).1, rfl,
   c10_cap_only_on_text_fallback.2 tC6 fsC6 rfl rfl⟩
